import Mathlib

/-!
Verification of the omk-bridge settlement core.

Shallow embedding of `src/contracts/solana/omk-bridge/src/lib.rs`, an Anchor
(Solana) program implementing the destination side of a two-way token bridge.

Modelling conventions:
* `u64` values are `Nat`; arithmetic is checked (an overflowing `+=` aborts the
  whole transaction, matching Anchor's release profile with overflow checks),
  so a transition whose accumulator update would exceed `2^64 - 1` fails with
  `BridgeErr.overflow` and commits nothing.
* Byte arrays (`[u8; 20]`, `[u8; 32]`, `[u8; 65]`) are `List Nat`; `Pubkey` is
  `Nat`.  Their contents are opaque to the program logic.
* Anchor account validation runs before the instruction body.  In particular
  the `#[account(init, ...)]` constraint on `processed_tx` (seeds
  `["processed_tx", ethereum_tx_hash]`) and on `burn_transaction` (seeds
  `["burn_tx", user, bridge_state.nonce]`) fails with an account-already-in-use
  error when the addressed account already exists, and otherwise yields a
  freshly created, zero-initialized account.  The `has_one = authority`
  constraint of `AdminAction` fails with Anchor's constraint-violation error
  when the passed signer differs from `bridge_state.authority`; we model that
  framework error as `BridgeErr.unauthorized`.
* The SPL-token CPIs `token::mint_to` / `token::burn` are external calls; each
  transition takes the call's outcome as a parameter (`Option Nat`: `none` for
  success, `some code` for the propagated ledger error).
* A Solana transaction is atomic: if the instruction returns an error nothing
  is persisted.  Transitions therefore have type `Except BridgeErr Chain`,
  and an `error` result leaves the caller with the unchanged pre-state.
-/

namespace OmkBridge

/-- Upper bound of `u64` arithmetic: `2 ^ 64`. -/
def U64_MOD : Nat := 2 ^ 64

/-- Errors a transition can surface.  The first five constructors are the
program's own `BridgeError` enum (lib.rs lines 301-317); the remaining ones
model failures raised by the account framework or the external token ledger. -/
inductive BridgeErr where
  | bridgePaused
  | alreadyProcessed
  | insufficientValidators
  | invalidAmount
  | invalidEthereumAddress
  | accountAlreadyInUse
  | unauthorized
  | overflow
  | ledger (code : Nat)
  deriving DecidableEq, Repr

deriving instance DecidableEq for Except

/-- `BridgeState` account (lib.rs lines 268-276). -/
structure BridgeState where
  ethereum_bridge : List Nat
  required_validators : Nat
  total_minted : Nat
  total_burned : Nat
  nonce : Nat
  authority : Nat
  paused : Bool
  deriving DecidableEq, Repr

/-- `ProcessedTransaction` account (lib.rs lines 280-286). -/
structure ProcessedTransaction where
  is_processed : Bool
  ethereum_tx_hash : List Nat
  amount : Nat
  recipient : Nat
  timestamp : Int
  deriving DecidableEq, Repr

/-- `BurnTransaction` account (lib.rs lines 290-297). -/
structure BurnTransaction where
  user : Nat
  amount : Nat
  ethereum_recipient : List Nat
  timestamp : Int
  nonce : Nat
  processed_on_ethereum : Bool
  deriving DecidableEq, Repr

/-- The persistent state the program owns: the `BridgeState` singleton plus the
PDA-addressed logs, modelled as association lists keyed the way the PDAs are
derived (`processed_tx` by the 32-byte source tx hash, `burn_tx` by
`(user, nonce)`). -/
structure Chain where
  bridge : BridgeState
  processed : List (List Nat × ProcessedTransaction)
  burns : List ((Nat × Nat) × BurnTransaction)
  deriving DecidableEq, Repr

/-- The zero-initialized `ProcessedTransaction` account Anchor's `init` hands
to the instruction body when the PDA did not previously exist. -/
def freshProcessedTx : ProcessedTransaction :=
  { is_processed := false
    ethereum_tx_hash := List.replicate 32 0
    amount := 0
    recipient := 0
    timestamp := 0 }

/-- `initialize` (lib.rs lines 11-27).  The `init` constraint on the
`bridge_state` singleton fails when it already exists. -/
def initialize_bridge (alreadyInitialized : Bool) (ethereum_bridge : List Nat)
    (required_validators : Nat) (authority : Nat) : Except BridgeErr Chain :=
  if alreadyInitialized then
    .error .accountAlreadyInUse
  else
    .ok { bridge :=
            { ethereum_bridge := ethereum_bridge
              required_validators := required_validators
              total_minted := 0
              total_burned := 0
              nonce := 0
              authority := authority
              paused := false }
          processed := []
          burns := [] }

/-- `mint_wrapped` (lib.rs lines 30-83).  Order of events, as on chain:
1. account validation: `init` of `processed_tx` at seeds
   `["processed_tx", ethereum_tx_hash]` fails if the account exists,
   otherwise produces a zeroed account;
2. `require!(!paused, BridgePaused)`;
3. `require!(!processed_tx.is_processed, AlreadyProcessed)` — evaluated on the
   freshly zeroed account;
4. `require!(signatures.len() >= required_validators, InsufficientValidators)`;
5. the `processed_tx` fields are written and `token::mint_to` is invoked, its
   error propagated by `?`;
6. `total_minted += amount; nonce += 1` (checked u64 arithmetic). -/
def mint_wrapped (c : Chain) (amount : Nat) (ethereum_tx_hash : List Nat)
    (validators_signatures : List (List Nat)) (recipient : Nat) (now : Int)
    (ledgerErr : Option Nat) : Except BridgeErr Chain :=
  if (c.processed.lookup ethereum_tx_hash).isSome then
    .error .accountAlreadyInUse
  else if c.bridge.paused then
    .error .bridgePaused
  else if freshProcessedTx.is_processed then
    .error .alreadyProcessed
  else if validators_signatures.length < c.bridge.required_validators then
    .error .insufficientValidators
  else
    match ledgerErr with
    | some e => .error (.ledger e)
    | none =>
      if c.bridge.total_minted + amount < U64_MOD ∧ c.bridge.nonce + 1 < U64_MOD then
        .ok { bridge :=
                { c.bridge with
                  total_minted := c.bridge.total_minted + amount
                  nonce := c.bridge.nonce + 1 }
              processed :=
                (ethereum_tx_hash,
                  { is_processed := true
                    ethereum_tx_hash := ethereum_tx_hash
                    amount := amount
                    recipient := recipient
                    timestamp := now }) :: c.processed
              burns := c.burns }
      else
        .error .overflow

/-- `burn_wrapped` (lib.rs lines 86-122).  Order of events, as on chain:
1. account validation: `init` of `burn_transaction` at seeds
   `["burn_tx", user, bridge_state.nonce]` fails if the account exists;
2. `require!(!paused, BridgePaused)`;
3. `require!(amount > 0, InvalidAmount)`;
4. `token::burn` CPI, its error propagated by `?`;
5. the burn record is written, stamped with the current nonce;
6. `total_burned += amount; nonce += 1` (checked u64 arithmetic). -/
def burn_wrapped (c : Chain) (amount : Nat) (ethereum_recipient : List Nat)
    (user : Nat) (now : Int) (ledgerErr : Option Nat) : Except BridgeErr Chain :=
  if (c.burns.lookup (user, c.bridge.nonce)).isSome then
    .error .accountAlreadyInUse
  else if c.bridge.paused then
    .error .bridgePaused
  else if amount = 0 then
    .error .invalidAmount
  else
    match ledgerErr with
    | some e => .error (.ledger e)
    | none =>
      if c.bridge.total_burned + amount < U64_MOD ∧ c.bridge.nonce + 1 < U64_MOD then
        .ok { bridge :=
                { c.bridge with
                  total_burned := c.bridge.total_burned + amount
                  nonce := c.bridge.nonce + 1 }
              processed := c.processed
              burns :=
                ((user, c.bridge.nonce),
                  { user := user
                    amount := amount
                    ethereum_recipient := ethereum_recipient
                    timestamp := now
                    nonce := c.bridge.nonce
                    processed_on_ethereum := false }) :: c.burns }
      else
        .error .overflow

/-- `pause_bridge` (lib.rs lines 125-130) behind the `AdminAction`
`has_one = authority` constraint (lib.rs lines 251-262). -/
def pause_bridge (c : Chain) (caller : Nat) : Except BridgeErr Chain :=
  if caller ≠ c.bridge.authority then
    .error .unauthorized
  else
    .ok { c with bridge := { c.bridge with paused := true } }

/-- `unpause_bridge` (lib.rs lines 133-138) behind `AdminAction`. -/
def unpause_bridge (c : Chain) (caller : Nat) : Except BridgeErr Chain :=
  if caller ≠ c.bridge.authority then
    .error .unauthorized
  else
    .ok { c with bridge := { c.bridge with paused := false } }

/-- `update_validators` (lib.rs lines 141-149) behind `AdminAction`. -/
def update_validators (c : Chain) (caller : Nat) (required_validators : Nat) :
    Except BridgeErr Chain :=
  if caller ≠ c.bridge.authority then
    .error .unauthorized
  else
    .ok { c with bridge := { c.bridge with required_validators := required_validators } }

/-- One externally submitted request, with the outcome of its ledger CPI. -/
inductive Op where
  | mint (amount : Nat) (hash : List Nat) (sigs : List (List Nat))
      (recipient : Nat) (now : Int) (ledgerErr : Option Nat)
  | burn (amount : Nat) (recipient : List Nat) (user : Nat) (now : Int)
      (ledgerErr : Option Nat)
  | pause (caller : Nat)
  | unpause (caller : Nat)
  | updateValidators (caller : Nat) (n : Nat)
  deriving Repr

/-- Dispatch one request to its transition. -/
def step (c : Chain) : Op → Except BridgeErr Chain
  | .mint a h s r t le => mint_wrapped c a h s r t le
  | .burn a r u t le => burn_wrapped c a r u t le
  | .pause k => pause_bridge c k
  | .unpause k => unpause_bridge c k
  | .updateValidators k n => update_validators c k n

/-- The state after one request: a failed transition commits nothing. -/
def applyOp (c : Chain) (op : Op) : Chain :=
  match step c op with
  | .ok c2 => c2
  | .error _ => c

/-- Serialized execution of a sequence of requests. -/
def run (c : Chain) : List Op → Chain
  | [] => c
  | op :: ops => run (applyOp c op) ops

/-- The amounts of the successful mints in a request sequence, in order. -/
def mintedAmounts (c : Chain) : List Op → List Nat
  | [] => []
  | op :: ops =>
    (match op, step c op with
     | .mint a _ _ _ _ _, .ok _ => [a]
     | _, _ => []) ++ mintedAmounts (applyOp c op) ops

/-- The amounts of the successful burns in a request sequence, in order. -/
def burnedAmounts (c : Chain) : List Op → List Nat
  | [] => []
  | op :: ops =>
    (match op, step c op with
     | .burn a _ _ _ _, .ok _ => [a]
     | _, _ => []) ++ burnedAmounts (applyOp c op) ops

/-- Errors attributable to the account framework or the external token
ledger rather than to the program's own `BridgeError` enum. -/
def isFrameworkOrLedgerErr (e : BridgeErr) : Prop :=
  e = .accountAlreadyInUse ∨ e = .unauthorized ∨ e = .overflow ∨
    ∃ code, e = .ledger code

/-- A bridge freshly initialized with `required_validators = 2`,
authority `7`. -/
def testChain : Chain :=
  { bridge :=
      { ethereum_bridge := List.replicate 20 0
        required_validators := 2
        total_minted := 0
        total_burned := 0
        nonce := 0
        authority := 7
        paused := false }
    processed := []
    burns := [] }

/-- A 32-byte source transaction hash. -/
def hashA : List Nat := List.replicate 32 170

/-- A 65-byte signature record. -/
def sigA : List Nat := List.replicate 65 1

/-- A second, distinct 65-byte signature record. -/
def sigB : List Nat := List.replicate 65 2

/-- The state after `mint_wrapped testChain 100 hashA [sigA, sigA] 5 0 none`. -/
def chainAfterMintA : Chain :=
  { bridge := { testChain.bridge with total_minted := 100, nonce := 1 }
    processed :=
      [(hashA,
        { is_processed := true
          ethereum_tx_hash := hashA
          amount := 100
          recipient := 5
          timestamp := 0 })]
    burns := [] }

/-- `testChain` with the pause flag set. -/
def pausedChain : Chain :=
  { testChain with bridge := { testChain.bridge with paused := true } }

/-- `chainAfterMintA` with the pause flag set. -/
def pausedChainAfterMintA : Chain :=
  { chainAfterMintA with bridge := { chainAfterMintA.bridge with paused := true } }

/-- A second, distinct 32-byte source transaction hash. -/
def hashB : List Nat := List.replicate 32 187

/-- The 20-byte all-zero source-chain address. -/
def zeroAddr : List Nat := List.replicate 20 0

/-- The state after `mint_wrapped testChain 0 hashB [sigA, sigB] 5 0 none`:
the zero-amount mint commits an entry and bumps the nonce. -/
def chainAfterZeroMint : Chain :=
  { bridge := { testChain.bridge with total_minted := 0, nonce := 1 }
    processed :=
      [(hashB,
        { is_processed := true
          ethereum_tx_hash := hashB
          amount := 0
          recipient := 5
          timestamp := 0 })]
    burns := [] }

/-- A demonstration request sequence: a successful mint, a replayed (failing)
mint, and a successful burn. -/
def demoOps : List Op :=
  [.mint 100 hashA [sigA, sigB] 5 0 none,
   .mint 100 hashA [sigA, sigB] 5 0 none,
   .burn 40 zeroAddr 6 0 none]

/-! ## Characterizations of the transitions -/

/-- Everything a successful `mint_wrapped` did and required. -/
theorem mint_wrapped_ok {c : Chain} {a : Nat} {h : List Nat} {s : List (List Nat)}
    {r : Nat} {t : Int} {le : Option Nat} {c2 : Chain}
    (hm : mint_wrapped c a h s r t le = .ok c2) :
    c2.bridge.total_minted = c.bridge.total_minted + a ∧
    c2.bridge.total_burned = c.bridge.total_burned ∧
    c2.bridge.nonce = c.bridge.nonce + 1 ∧
    c2.bridge.paused = c.bridge.paused ∧
    c2.bridge.authority = c.bridge.authority ∧
    c2.bridge.required_validators = c.bridge.required_validators ∧
    c2.processed =
      (h, { is_processed := true, ethereum_tx_hash := h, amount := a,
            recipient := r, timestamp := t }) :: c.processed ∧
    c2.burns = c.burns ∧
    c.processed.lookup h = none ∧
    c.bridge.paused = false ∧
    c.bridge.required_validators ≤ s.length ∧
    le = none := by
  unfold mint_wrapped at hm
  split at hm
  next hl => exact Except.noConfusion hm
  next hl =>
    split at hm
    next hp => exact Except.noConfusion hm
    next hp =>
      split at hm
      next hfresh => exact Except.noConfusion hm
      next hfresh =>
        split at hm
        next hs => exact Except.noConfusion hm
        next hs =>
          split at hm
          next e => exact Except.noConfusion hm
          next =>
            split at hm
            next hov =>
              cases hm
              simp_all [Option.not_isSome_iff_eq_none, Nat.not_lt, Bool.not_eq_true]
              intro a2 b hmem heq
              subst heq
              exact hl b hmem
            next hov => exact Except.noConfusion hm

/-- Everything a successful `burn_wrapped` did and required. -/
theorem burn_wrapped_ok {c : Chain} {a : Nat} {rec : List Nat} {u : Nat}
    {t : Int} {le : Option Nat} {c2 : Chain}
    (hb : burn_wrapped c a rec u t le = .ok c2) :
    c2.bridge.total_burned = c.bridge.total_burned + a ∧
    c2.bridge.total_minted = c.bridge.total_minted ∧
    c2.bridge.nonce = c.bridge.nonce + 1 ∧
    c2.bridge.paused = c.bridge.paused ∧
    c2.bridge.authority = c.bridge.authority ∧
    c2.bridge.required_validators = c.bridge.required_validators ∧
    c2.processed = c.processed ∧
    c2.burns =
      ((u, c.bridge.nonce),
        { user := u, amount := a, ethereum_recipient := rec, timestamp := t,
          nonce := c.bridge.nonce, processed_on_ethereum := false }) :: c.burns ∧
    c.burns.lookup (u, c.bridge.nonce) = none ∧
    c.bridge.paused = false ∧
    0 < a ∧
    le = none := by
  unfold burn_wrapped at hb
  split at hb
  next hl => exact Except.noConfusion hb
  next hl =>
    split at hb
    next hp => exact Except.noConfusion hb
    next hp =>
      split at hb
      next ha => exact Except.noConfusion hb
      next ha =>
        split at hb
        next e => exact Except.noConfusion hb
        next =>
          split at hb
          next hov =>
            cases hb
            simp_all [Option.not_isSome_iff_eq_none, Nat.pos_of_ne_zero, Bool.not_eq_true]
            intro a2 b2 x hmem hu hn
            subst hu
            subst hn
            exact hl x hmem
          next hov => exact Except.noConfusion hb

/-- A successful `pause_bridge` was called by the authority and only set the
pause flag. -/
theorem pause_bridge_ok {c : Chain} {k : Nat} {c2 : Chain}
    (hp : pause_bridge c k = .ok c2) :
    c2 = { c with bridge := { c.bridge with paused := true } } ∧
    k = c.bridge.authority := by
  unfold pause_bridge at hp
  split at hp
  next => exact Except.noConfusion hp
  next hk =>
    cases hp
    exact ⟨rfl, by simpa using hk⟩

/-- A successful `unpause_bridge` was called by the authority and only cleared
the pause flag. -/
theorem unpause_bridge_ok {c : Chain} {k : Nat} {c2 : Chain}
    (hp : unpause_bridge c k = .ok c2) :
    c2 = { c with bridge := { c.bridge with paused := false } } ∧
    k = c.bridge.authority := by
  unfold unpause_bridge at hp
  split at hp
  next => exact Except.noConfusion hp
  next hk =>
    cases hp
    exact ⟨rfl, by simpa using hk⟩

/-- A successful `update_validators` was called by the authority and only set
the validator threshold. -/
theorem update_validators_ok {c : Chain} {k : Nat} {n : Nat} {c2 : Chain}
    (hp : update_validators c k n = .ok c2) :
    c2 = { c with bridge := { c.bridge with required_validators := n } } ∧
    k = c.bridge.authority := by
  unfold update_validators at hp
  split at hp
  next => exact Except.noConfusion hp
  next hk =>
    cases hp
    exact ⟨rfl, by simpa using hk⟩

/-- A mint request whose source tx hash already has a log entry fails during
account validation, before the instruction body runs. -/
theorem mint_wrapped_replay {c : Chain} (a : Nat) {h : List Nat}
    (s : List (List Nat)) (r : Nat) (t : Int) (le : Option Nat)
    (hl : (c.processed.lookup h).isSome) :
    mint_wrapped c a h s r t le = .error .accountAlreadyInUse := by
  unfold mint_wrapped
  rw [if_pos hl]

/-- A mint request for a fresh hash on a paused bridge fails with
`BridgePaused`. -/
theorem mint_wrapped_paused {c : Chain} (a : Nat) {h : List Nat}
    (s : List (List Nat)) (r : Nat) (t : Int) (le : Option Nat)
    (hl : c.processed.lookup h = none) (hp : c.bridge.paused = true) :
    mint_wrapped c a h s r t le = .error .bridgePaused := by
  unfold mint_wrapped
  rw [hl]
  simp [hp]

/-- A mint request for a fresh hash on an unpaused bridge with too few
signature records fails with `InsufficientValidators`. -/
theorem mint_wrapped_insufficient {c : Chain} (a : Nat) {h : List Nat}
    {s : List (List Nat)} (r : Nat) (t : Int) (le : Option Nat)
    (hl : c.processed.lookup h = none) (hp : c.bridge.paused = false)
    (hs : s.length < c.bridge.required_validators) :
    mint_wrapped c a h s r t le = .error .insufficientValidators := by
  unfold mint_wrapped
  rw [hl]
  simp [hp, freshProcessedTx, hs]

/-- A mint request that passes every precondition but whose token-ledger CPI
fails propagates the ledger error; nothing is committed. -/
theorem mint_wrapped_ledger_fail {c : Chain} (a : Nat) {h : List Nat}
    {s : List (List Nat)} (r : Nat) (t : Int) (e : Nat)
    (hl : c.processed.lookup h = none) (hp : c.bridge.paused = false)
    (hs : c.bridge.required_validators ≤ s.length) :
    mint_wrapped c a h s r t (some e) = .error (.ledger e) := by
  unfold mint_wrapped
  rw [hl]
  simp [hp, freshProcessedTx, Nat.not_lt.mpr hs]

/-- A mint request that passes every precondition, whose ledger CPI succeeds
and whose accumulator updates fit in `u64`, succeeds and commits exactly the
new log entry and counter updates. -/
theorem mint_wrapped_success {c : Chain} (a : Nat) {h : List Nat}
    {s : List (List Nat)} (r : Nat) (t : Int)
    (hl : c.processed.lookup h = none) (hp : c.bridge.paused = false)
    (hs : c.bridge.required_validators ≤ s.length)
    (hm : c.bridge.total_minted + a < U64_MOD) (hn : c.bridge.nonce + 1 < U64_MOD) :
    mint_wrapped c a h s r t none =
      .ok { bridge :=
              { c.bridge with
                total_minted := c.bridge.total_minted + a
                nonce := c.bridge.nonce + 1 }
            processed :=
              (h, { is_processed := true, ethereum_tx_hash := h, amount := a,
                    recipient := r, timestamp := t }) :: c.processed
            burns := c.burns } := by
  unfold mint_wrapped
  rw [hl]
  simp [hp, freshProcessedTx, Nat.not_lt.mpr hs, hm, hn]

/-- A mint request that passes every precondition and whose ledger CPI
succeeds, but whose accumulator update would overflow `u64`, aborts. -/
theorem mint_wrapped_overflow {c : Chain} (a : Nat) {h : List Nat}
    {s : List (List Nat)} (r : Nat) (t : Int)
    (hl : c.processed.lookup h = none) (hp : c.bridge.paused = false)
    (hs : c.bridge.required_validators ≤ s.length)
    (hov : ¬(c.bridge.total_minted + a < U64_MOD ∧ c.bridge.nonce + 1 < U64_MOD)) :
    mint_wrapped c a h s r t none = .error .overflow := by
  unfold mint_wrapped
  rw [hl]
  simp only [Option.isSome_none, Bool.false_eq_true, if_false, hp, freshProcessedTx,
    Nat.not_lt.mpr hs, if_neg hov]

/-- A burn request whose `(user, nonce)` PDA already exists fails during
account validation. -/
theorem burn_wrapped_replay {c : Chain} (a : Nat) (rec : List Nat) {u : Nat}
    (t : Int) (le : Option Nat)
    (hl : (c.burns.lookup (u, c.bridge.nonce)).isSome) :
    burn_wrapped c a rec u t le = .error .accountAlreadyInUse := by
  unfold burn_wrapped
  rw [if_pos hl]

/-- A burn request on a paused bridge (with a fresh burn-record PDA) fails
with `BridgePaused`. -/
theorem burn_wrapped_paused {c : Chain} (a : Nat) (rec : List Nat) {u : Nat}
    (t : Int) (le : Option Nat)
    (hl : c.burns.lookup (u, c.bridge.nonce) = none)
    (hp : c.bridge.paused = true) :
    burn_wrapped c a rec u t le = .error .bridgePaused := by
  unfold burn_wrapped
  rw [hl]
  simp [hp]

/-- A zero-amount burn on an unpaused bridge fails with `InvalidAmount`. -/
theorem burn_wrapped_zero {c : Chain} (rec : List Nat) {u : Nat}
    (t : Int) (le : Option Nat)
    (hl : c.burns.lookup (u, c.bridge.nonce) = none)
    (hp : c.bridge.paused = false) :
    burn_wrapped c 0 rec u t le = .error .invalidAmount := by
  unfold burn_wrapped
  rw [hl]
  simp [hp]

/-- A burn request that passes every precondition, whose ledger CPI succeeds
and whose accumulator updates fit in `u64`, succeeds and commits exactly the
new burn record and counter updates. -/
theorem burn_wrapped_success {c : Chain} {a : Nat} (rec : List Nat) {u : Nat}
    (t : Int)
    (hl : c.burns.lookup (u, c.bridge.nonce) = none)
    (hp : c.bridge.paused = false) (ha : 0 < a)
    (hb : c.bridge.total_burned + a < U64_MOD) (hn : c.bridge.nonce + 1 < U64_MOD) :
    burn_wrapped c a rec u t none =
      .ok { bridge :=
              { c.bridge with
                total_burned := c.bridge.total_burned + a
                nonce := c.bridge.nonce + 1 }
            processed := c.processed
            burns :=
              ((u, c.bridge.nonce),
                { user := u, amount := a, ethereum_recipient := rec,
                  timestamp := t, nonce := c.bridge.nonce,
                  processed_on_ethereum := false }) :: c.burns } := by
  unfold burn_wrapped
  rw [hl]
  simp [hp, Nat.pos_iff_ne_zero.mp ha, hb, hn]

/-- Every error `mint_wrapped` can return. -/
theorem mint_wrapped_error_cases {c : Chain} {a : Nat} {h : List Nat}
    {s : List (List Nat)} {r : Nat} {t : Int} {le : Option Nat} {e : BridgeErr}
    (hm : mint_wrapped c a h s r t le = .error e) :
    e = .accountAlreadyInUse ∨ e = .bridgePaused ∨ e = .alreadyProcessed ∨
    e = .insufficientValidators ∨ (∃ code, e = .ledger code) ∨ e = .overflow := by
  unfold mint_wrapped at hm
  split at hm
  next => simp_all
  next =>
    split at hm
    next => simp_all
    next =>
      split at hm
      next => simp_all
      next =>
        split at hm
        next => simp_all
        next =>
          split at hm
          next code =>
            injection hm with hm2
            exact Or.inr (Or.inr (Or.inr (Or.inr (Or.inl ⟨code, hm2.symm⟩))))
          next =>
            split at hm
            next => exact Except.noConfusion hm
            next => simp_all

/-- Every error `burn_wrapped` can return. -/
theorem burn_wrapped_error_cases {c : Chain} {a : Nat} {rec : List Nat}
    {u : Nat} {t : Int} {le : Option Nat} {e : BridgeErr}
    (hb : burn_wrapped c a rec u t le = .error e) :
    e = .accountAlreadyInUse ∨ e = .bridgePaused ∨ e = .invalidAmount ∨
    (∃ code, e = .ledger code) ∨ e = .overflow := by
  unfold burn_wrapped at hb
  split at hb
  next => simp_all
  next =>
    split at hb
    next => simp_all
    next =>
      split at hb
      next => simp_all
      next =>
        split at hb
        next code =>
          injection hb with hb2
          exact Or.inr (Or.inr (Or.inr (Or.inl ⟨code, hb2.symm⟩)))
        next =>
          split at hb
          next => exact Except.noConfusion hb
          next => simp_all

/-- Every error `initialize_bridge` can return. -/
theorem initialize_bridge_error_cases {b : Bool} {eb : List Nat} {rv : Nat}
    {au : Nat} {e : BridgeErr}
    (hi : initialize_bridge b eb rv au = .error e) :
    e = .accountAlreadyInUse := by
  unfold initialize_bridge at hi
  split at hi
  next => simp_all
  next => exact Except.noConfusion hi

/-- Every error `pause_bridge` can return. -/
theorem pause_bridge_error_cases {c : Chain} {k : Nat} {e : BridgeErr}
    (hp : pause_bridge c k = .error e) : e = .unauthorized := by
  unfold pause_bridge at hp
  split at hp
  next => simp_all
  next => exact Except.noConfusion hp

/-- Every error `unpause_bridge` can return. -/
theorem unpause_bridge_error_cases {c : Chain} {k : Nat} {e : BridgeErr}
    (hp : unpause_bridge c k = .error e) : e = .unauthorized := by
  unfold unpause_bridge at hp
  split at hp
  next => simp_all
  next => exact Except.noConfusion hp

/-- Every error `update_validators` can return. -/
theorem update_validators_error_cases {c : Chain} {k : Nat} {n : Nat}
    {e : BridgeErr}
    (hp : update_validators c k n = .error e) : e = .unauthorized := by
  unfold update_validators at hp
  split at hp
  next => simp_all
  next => exact Except.noConfusion hp

/-- Effect of one request on `total_minted`: a successful mint adds its
amount; everything else leaves the accumulator alone. -/
theorem applyOp_total_minted (c : Chain) (op : Op) :
    (applyOp c op).bridge.total_minted =
      c.bridge.total_minted +
        (match op, step c op with
          | .mint a _ _ _ _ _, .ok _ => [a]
          | _, _ => []).sum := by
  unfold applyOp
  cases op with
  | mint a h s r t le =>
    simp only [step]
    cases hst : mint_wrapped c a h s r t le with
    | ok c2 => simp [hst, (mint_wrapped_ok hst).1]
    | error e => simp [hst]
  | burn a r u t le =>
    simp only [step]
    cases hst : burn_wrapped c a r u t le with
    | ok c2 => simp [hst, (burn_wrapped_ok hst).2.1]
    | error e => simp [hst]
  | pause k =>
    simp only [step]
    cases hst : pause_bridge c k with
    | ok c2 => simp [hst, (pause_bridge_ok hst).1]
    | error e => simp [hst]
  | unpause k =>
    simp only [step]
    cases hst : unpause_bridge c k with
    | ok c2 => simp [hst, (unpause_bridge_ok hst).1]
    | error e => simp [hst]
  | updateValidators k n =>
    simp only [step]
    cases hst : update_validators c k n with
    | ok c2 => simp [hst, (update_validators_ok hst).1]
    | error e => simp [hst]

/-- Effect of one request on `total_burned`: a successful burn adds its
amount; everything else leaves the accumulator alone. -/
theorem applyOp_total_burned (c : Chain) (op : Op) :
    (applyOp c op).bridge.total_burned =
      c.bridge.total_burned +
        (match op, step c op with
          | .burn a _ _ _ _, .ok _ => [a]
          | _, _ => []).sum := by
  unfold applyOp
  cases op with
  | mint a h s r t le =>
    simp only [step]
    cases hst : mint_wrapped c a h s r t le with
    | ok c2 => simp [hst, (mint_wrapped_ok hst).2.1]
    | error e => simp [hst]
  | burn a r u t le =>
    simp only [step]
    cases hst : burn_wrapped c a r u t le with
    | ok c2 => simp [hst, (burn_wrapped_ok hst).1]
    | error e => simp [hst]
  | pause k =>
    simp only [step]
    cases hst : pause_bridge c k with
    | ok c2 => simp [hst, (pause_bridge_ok hst).1]
    | error e => simp [hst]
  | unpause k =>
    simp only [step]
    cases hst : unpause_bridge c k with
    | ok c2 => simp [hst, (unpause_bridge_ok hst).1]
    | error e => simp [hst]
  | updateValidators k n =>
    simp only [step]
    cases hst : update_validators c k n with
    | ok c2 => simp [hst, (update_validators_ok hst).1]
    | error e => simp [hst]

/-- One request never decreases the accumulators or the nonce. -/
theorem applyOp_mono (c : Chain) (op : Op) :
    c.bridge.total_minted ≤ (applyOp c op).bridge.total_minted ∧
    c.bridge.total_burned ≤ (applyOp c op).bridge.total_burned ∧
    c.bridge.nonce ≤ (applyOp c op).bridge.nonce := by
  unfold applyOp
  cases op with
  | mint a h s r t le =>
    simp only [step]
    cases hst : mint_wrapped c a h s r t le with
    | ok c2 =>
      have hh := mint_wrapped_ok hst
      simp [hh.1, hh.2.1, hh.2.2.1]
    | error e => simp
  | burn a r u t le =>
    simp only [step]
    cases hst : burn_wrapped c a r u t le with
    | ok c2 =>
      have hh := burn_wrapped_ok hst
      simp [hh.1, hh.2.1, hh.2.2.1]
    | error e => simp
  | pause k =>
    simp only [step]
    cases hst : pause_bridge c k with
    | ok c2 => simp [(pause_bridge_ok hst).1]
    | error e => simp
  | unpause k =>
    simp only [step]
    cases hst : unpause_bridge c k with
    | ok c2 => simp [(unpause_bridge_ok hst).1]
    | error e => simp
  | updateValidators k n =>
    simp only [step]
    cases hst : update_validators c k n with
    | ok c2 => simp [(update_validators_ok hst).1]
    | error e => simp

/-- Over any request sequence, `total_minted` grows by exactly the sum of the
successful mint amounts. -/
theorem run_total_minted (ops : List Op) : ∀ c : Chain,
    (run c ops).bridge.total_minted =
      c.bridge.total_minted + (mintedAmounts c ops).sum := by
  induction ops with
  | nil => intro c; simp [run, mintedAmounts]
  | cons op ops ih =>
    intro c
    simp only [run, mintedAmounts, List.sum_append]
    rw [ih (applyOp c op), applyOp_total_minted]
    omega

/-- Over any request sequence, `total_burned` grows by exactly the sum of the
successful burn amounts. -/
theorem run_total_burned (ops : List Op) : ∀ c : Chain,
    (run c ops).bridge.total_burned =
      c.bridge.total_burned + (burnedAmounts c ops).sum := by
  induction ops with
  | nil => intro c; simp [run, burnedAmounts]
  | cons op ops ih =>
    intro c
    simp only [run, burnedAmounts, List.sum_append]
    rw [ih (applyOp c op), applyOp_total_burned]
    omega

/-- Over any request sequence, the accumulators and the nonce never
decrease. -/
theorem run_mono (ops : List Op) : ∀ c : Chain,
    c.bridge.total_minted ≤ (run c ops).bridge.total_minted ∧
    c.bridge.total_burned ≤ (run c ops).bridge.total_burned ∧
    c.bridge.nonce ≤ (run c ops).bridge.nonce := by
  induction ops with
  | nil => intro c; simp [run]
  | cons op ops ih =>
    intro c
    have h1 := applyOp_mono c op
    have h2 := ih (applyOp c op)
    simp only [run]
    exact ⟨le_trans h1.1 h2.1, le_trans h1.2.1 h2.2.1, le_trans h1.2.2 h2.2.2⟩

/-! ## Claim C1 — replay protection for mint -/

/-- C1 counterexample: a second mint attempt for an already-processed source
tx hash is rejected by the account framework — the `init` constraint on the
processed-tx PDA fails because the account already exists — and not with the
program error `AlreadyProcessed`: that guard only ever inspects the freshly
zeroed account, so it can never fire. -/
theorem mint_replay_error_is_account_in_use :
    mint_wrapped testChain 100 hashA [sigA, sigA] 5 0 none = .ok chainAfterMintA ∧
    mint_wrapped chainAfterMintA 50 hashA [sigA, sigA] 6 0 none =
      .error .accountAlreadyInUse ∧
    BridgeErr.accountAlreadyInUse ≠ BridgeErr.alreadyProcessed :=
  ⟨by decide, by decide, by decide⟩

/-- C1 (amended): for every source tx hash at most one mint referencing it
ever succeeds — any attempt whose hash already has a `ProcessedTransaction`
entry fails with the account-creation (already-in-use) error, for all amounts
and recipients; a successful mint records the entry for its hash; and a
successful mint never updates or deletes any existing entry. -/
theorem mint_replay_protection (c : Chain) (a : Nat) (h : List Nat)
    (s : List (List Nat)) (r : Nat) (t : Int) (le : Option Nat) :
    ((c.processed.lookup h).isSome →
      mint_wrapped c a h s r t le = .error .accountAlreadyInUse) ∧
    (∀ c2, mint_wrapped c a h s r t le = .ok c2 →
      c.processed.lookup h = none ∧
      c2.processed.lookup h =
        some { is_processed := true, ethereum_tx_hash := h, amount := a,
               recipient := r, timestamp := t } ∧
      ∀ h2 e, c.processed.lookup h2 = some e → c2.processed.lookup h2 = some e) := by
  constructor
  · intro hl
    exact mint_wrapped_replay a s r t le hl
  · intro c2 hm
    obtain ⟨h1, h2, h3, h4, h5, h6, h7, h8, h9, h10, h11, h12⟩ := mint_wrapped_ok hm
    refine ⟨h9, ?_, ?_⟩
    · rw [h7]
      exact List.lookup_cons_self
    · intro h2x e hx
      have hne : h2x ≠ h := by
        intro heq
        rw [heq, h9] at hx
        exact Option.noConfusion hx
      rw [h7, List.lookup_cons]
      simp [beq_false_of_ne hne, hx]

/-- Witness for `mint_replay_protection` at a concrete replayed hash. -/
theorem mint_replay_protection_witness :
    mint_wrapped chainAfterMintA 50 hashA [sigA, sigA] 6 0 none =
      .error .accountAlreadyInUse :=
  (mint_replay_protection chainAfterMintA 50 hashA [sigA, sigA] 6 0 none).1
    (by decide)

/-! ## Claim C2 — quorum counts raw signatures -/

/-- C2 counterexample: with `required_validators = 2`, a mint padded with two
copies of the same 65-byte signature record succeeds — the program compares
only `validators_signatures.len()` against the threshold, without
deduplicating by signer and without any cryptographic verification. -/
theorem duplicate_signatures_pass_quorum :
    testChain.bridge.required_validators = 2 ∧
    mint_wrapped testChain 100 hashA [sigA, sigA] 5 0 none = .ok chainAfterMintA ∧
    mint_wrapped testChain 100 hashA [sigA, sigA] 5 0 none ≠
      .error .insufficientValidators :=
  ⟨by decide, by decide, by decide⟩

/-- C2 (amended): the quorum gate is exactly a raw length comparison — a mint
attempt on an unpaused bridge with a fresh hash fails with
`InsufficientValidators` iff the number of supplied signature records,
duplicates included, is below `required_validators`. -/
theorem quorum_is_raw_signature_count (c : Chain) (a : Nat) (h : List Nat)
    (s : List (List Nat)) (r : Nat) (t : Int) (le : Option Nat)
    (hl : c.processed.lookup h = none) (hp : c.bridge.paused = false) :
    mint_wrapped c a h s r t le = .error .insufficientValidators ↔
      s.length < c.bridge.required_validators := by
  constructor
  · intro hm
    by_contra hge
    have hge2 := Nat.not_lt.mp hge
    cases le with
    | some e =>
      rw [mint_wrapped_ledger_fail a r t e hl hp hge2] at hm
      exact BridgeErr.noConfusion (Except.error.inj hm)
    | none =>
      by_cases hov : c.bridge.total_minted + a < U64_MOD ∧ c.bridge.nonce + 1 < U64_MOD
      · rw [mint_wrapped_success a r t hl hp hge2 hov.1 hov.2] at hm
        exact Except.noConfusion hm
      · rw [mint_wrapped_overflow a r t hl hp hge2 hov] at hm
        exact BridgeErr.noConfusion (Except.error.inj hm)
  · intro hlt
    exact mint_wrapped_insufficient a r t le hl hp hlt

/-- Witness for `quorum_is_raw_signature_count` at a concrete input: one
signature against a threshold of two. -/
theorem quorum_is_raw_signature_count_witness :
    mint_wrapped testChain 100 hashA [sigA] 5 0 none =
        .error .insufficientValidators ↔
      ([sigA] : List (List Nat)).length < testChain.bridge.required_validators :=
  quorum_is_raw_signature_count testChain 100 hashA [sigA] 5 0 none
    (by decide) (by decide)

/-! ## Claim C3 — ledger failure aborts the mint atomically -/

/-- C3: if the token-ledger mint CPI fails, the transition returns the
propagated ledger error; since an erroring transition commits nothing (Solana
transactions are atomic and the embedding returns no state on error), the
dedup record is not created and the very same hash can still be minted
successfully once the ledger call succeeds. -/
theorem ledger_failure_aborts_mint (c : Chain) (a : Nat) (h : List Nat)
    (s : List (List Nat)) (r : Nat) (t : Int) (e : Nat)
    (hl : c.processed.lookup h = none) (hp : c.bridge.paused = false)
    (hs : c.bridge.required_validators ≤ s.length)
    (hm : c.bridge.total_minted + a < U64_MOD) (hn : c.bridge.nonce + 1 < U64_MOD) :
    mint_wrapped c a h s r t (some e) = .error (.ledger e) ∧
    ∃ c2, mint_wrapped c a h s r t none = .ok c2 ∧
      c2.processed.lookup h =
        some { is_processed := true, ethereum_tx_hash := h, amount := a,
               recipient := r, timestamp := t } := by
  refine ⟨mint_wrapped_ledger_fail a r t e hl hp hs, ?_⟩
  refine ⟨_, mint_wrapped_success a r t hl hp hs hm hn, ?_⟩
  exact List.lookup_cons_self

/-- Witness for `ledger_failure_aborts_mint` at a concrete input. -/
theorem ledger_failure_aborts_mint_witness :
    mint_wrapped testChain 100 hashA [sigA, sigB] 5 0 (some 3) =
      .error (.ledger 3) ∧
    ∃ c2, mint_wrapped testChain 100 hashA [sigA, sigB] 5 0 none = .ok c2 ∧
      c2.processed.lookup hashA =
        some { is_processed := true, ethereum_tx_hash := hashA, amount := 100,
               recipient := 5, timestamp := 0 } :=
  ledger_failure_aborts_mint testChain 100 hashA [sigA, sigB] 5 0 3
    (by decide) (by decide) (by decide) (by decide) (by decide)

/-! ## Claim C4 — the nonce counter -/

/-- C4: every successful mint and every successful burn increments the nonce
by exactly 1 (a burn record being stamped with the pre-increment value, so
two successful transitions never carry the same nonce), the admin operations
never change it, and across any request sequence it never decreases. -/
theorem nonce_strictly_increasing :
    (∀ c a h s r t le c2, mint_wrapped c a h s r t le = .ok c2 →
        c2.bridge.nonce = c.bridge.nonce + 1) ∧
    (∀ c a rec u t le c2, burn_wrapped c a rec u t le = .ok c2 →
        c2.bridge.nonce = c.bridge.nonce + 1 ∧
        c2.burns.lookup (u, c.bridge.nonce) =
          some { user := u, amount := a, ethereum_recipient := rec,
                 timestamp := t, nonce := c.bridge.nonce,
                 processed_on_ethereum := false }) ∧
    (∀ c k c2, pause_bridge c k = .ok c2 → c2.bridge.nonce = c.bridge.nonce) ∧
    (∀ c k c2, unpause_bridge c k = .ok c2 → c2.bridge.nonce = c.bridge.nonce) ∧
    (∀ c k n c2, update_validators c k n = .ok c2 →
        c2.bridge.nonce = c.bridge.nonce) ∧
    (∀ c ops, c.bridge.nonce ≤ (run c ops).bridge.nonce) := by
  refine ⟨?_, ?_, ?_, ?_, ?_, ?_⟩
  · intro c a h s r t le c2 hm
    exact (mint_wrapped_ok hm).2.2.1
  · intro c a rec u t le c2 hb
    have hh := burn_wrapped_ok hb
    refine ⟨hh.2.2.1, ?_⟩
    rw [hh.2.2.2.2.2.2.2.1]
    exact List.lookup_cons_self
  · intro c k c2 hp
    rw [(pause_bridge_ok hp).1]
  · intro c k c2 hp
    rw [(unpause_bridge_ok hp).1]
  · intro c k n c2 hp
    rw [(update_validators_ok hp).1]
  · intro c ops
    exact (run_mono ops c).2.2

/-- Witness for `nonce_strictly_increasing` at a concrete successful mint. -/
theorem nonce_strictly_increasing_witness :
    chainAfterMintA.bridge.nonce = testChain.bridge.nonce + 1 :=
  nonce_strictly_increasing.1 testChain 100 hashA [sigA, sigA] 5 0 none
    chainAfterMintA (by decide)

/-! ## Claim C5 — the supply accumulators -/

/-- C5: starting from a state with zeroed accumulators, after any request
sequence `total_minted` equals the sum of the amounts of the successful mints
and `total_burned` the sum of the amounts of the successful burns (failed
transitions contribute nothing), and both accumulators are monotonically
non-decreasing from any state. -/
theorem totals_equal_sums (c : Chain) (ops : List Op)
    (h0 : c.bridge.total_minted = 0) (h1 : c.bridge.total_burned = 0) :
    (run c ops).bridge.total_minted = (mintedAmounts c ops).sum ∧
    (run c ops).bridge.total_burned = (burnedAmounts c ops).sum ∧
    (∀ c3 ops2, c3.bridge.total_minted ≤ (run c3 ops2).bridge.total_minted ∧
        c3.bridge.total_burned ≤ (run c3 ops2).bridge.total_burned) := by
  refine ⟨?_, ?_, ?_⟩
  · rw [run_total_minted ops c, h0, Nat.zero_add]
  · rw [run_total_burned ops c, h1, Nat.zero_add]
  · intro c3 ops2
    exact ⟨(run_mono ops2 c3).1, (run_mono ops2 c3).2.1⟩

/-- Witness for `totals_equal_sums` on a concrete request sequence (one
successful mint of 100, one failing replayed mint, one successful burn
of 40). -/
theorem totals_equal_sums_witness :
    (run testChain demoOps).bridge.total_minted =
        (mintedAmounts testChain demoOps).sum ∧
    (run testChain demoOps).bridge.total_burned =
        (burnedAmounts testChain demoOps).sum ∧
    (∀ c3 ops2, c3.bridge.total_minted ≤ (run c3 ops2).bridge.total_minted ∧
        c3.bridge.total_burned ≤ (run c3 ops2).bridge.total_burned) :=
  totals_equal_sums testChain demoOps (by decide) (by decide)

/-! ## Claim C6 — the pause flag -/

/-- C6 counterexample: on a paused bridge, a mint attempt whose source tx hash
was already processed fails with the account-creation error raised during
account validation — which runs before the instruction body — and not with
`BridgePaused`. -/
theorem paused_replay_mint_error_not_paused :
    pausedChainAfterMintA.bridge.paused = true ∧
    mint_wrapped pausedChainAfterMintA 50 hashA [sigA, sigA] 6 0 none =
      .error .accountAlreadyInUse ∧
    BridgeErr.accountAlreadyInUse ≠ BridgeErr.bridgePaused :=
  ⟨by decide, by decide, by decide⟩

/-- C6 (amended): while the bridge is paused every mint and every burn
attempt fails (committing nothing); the failure is `BridgePaused` except when
account validation already rejects the attempt because the addressed log
entry exists. After the authority unpauses, a mint for a source tx hash with
no `ProcessedTransaction` entry succeeds whenever quorum, ledger and `u64`
bounds allow. -/
theorem paused_blocks_transitions (c : Chain) (hp : c.bridge.paused = true) :
    (∀ a h s r t le, ∃ err, mint_wrapped c a h s r t le = .error err) ∧
    (∀ a h s r t le, c.processed.lookup h = none →
        mint_wrapped c a h s r t le = .error .bridgePaused) ∧
    (∀ a rec u t le, ∃ err, burn_wrapped c a rec u t le = .error err) ∧
    (∀ a rec u t le, c.burns.lookup (u, c.bridge.nonce) = none →
        burn_wrapped c a rec u t le = .error .bridgePaused) ∧
    (∀ c2, unpause_bridge c c.bridge.authority = .ok c2 →
        c2.bridge.paused = false ∧
        ∀ a h s r t, c2.processed.lookup h = none →
          c2.bridge.required_validators ≤ s.length →
          c2.bridge.total_minted + a < U64_MOD →
          c2.bridge.nonce + 1 < U64_MOD →
          ∃ c3, mint_wrapped c2 a h s r t none = .ok c3) := by
  refine ⟨?_, ?_, ?_, ?_, ?_⟩
  · intro a h s r t le
    by_cases hl : (c.processed.lookup h).isSome
    · exact ⟨_, mint_wrapped_replay a s r t le hl⟩
    · exact ⟨_, mint_wrapped_paused a s r t le
        (Option.not_isSome_iff_eq_none.mp hl) hp⟩
  · intro a h s r t le hl
    exact mint_wrapped_paused a s r t le hl hp
  · intro a rec u t le
    by_cases hl : (c.burns.lookup (u, c.bridge.nonce)).isSome
    · exact ⟨_, burn_wrapped_replay a rec t le hl⟩
    · exact ⟨_, burn_wrapped_paused a rec t le
        (Option.not_isSome_iff_eq_none.mp hl) hp⟩
  · intro a rec u t le hl
    exact burn_wrapped_paused a rec t le hl hp
  · intro c2 hu
    have hc2 := (unpause_bridge_ok hu).1
    subst hc2
    refine ⟨rfl, ?_⟩
    intro a h s r t hl hs hm hn
    exact ⟨_, mint_wrapped_success a r t hl rfl hs hm hn⟩

/-- Witness for `paused_blocks_transitions`: on the concrete paused bridge a
fresh-hash mint fails with `BridgePaused`. -/
theorem paused_blocks_transitions_witness :
    mint_wrapped pausedChain 100 hashA [sigA, sigA] 5 0 none =
      .error .bridgePaused :=
  (paused_blocks_transitions pausedChain (by decide)).2.1
    100 hashA [sigA, sigA] 5 0 none (by decide)

/-! ## Claim C7 — admin operations require the authority -/

/-- C7: each admin operation (`pause_bridge`, `unpause_bridge`,
`update_validators`) succeeds exactly when the calling signer equals
`BridgeState.authority`; any other caller is rejected by the authorization
constraint (Anchor's `has_one = authority` check, modelled as
`BridgeErr.unauthorized`) with no state change, and when the authority calls,
only the intended field changes. -/
theorem admin_requires_authority (c : Chain) (k : Nat) (n : Nat) :
    (k ≠ c.bridge.authority →
      pause_bridge c k = .error .unauthorized ∧
      unpause_bridge c k = .error .unauthorized ∧
      update_validators c k n = .error .unauthorized) ∧
    (k = c.bridge.authority →
      pause_bridge c k = .ok { c with bridge := { c.bridge with paused := true } } ∧
      unpause_bridge c k = .ok { c with bridge := { c.bridge with paused := false } } ∧
      update_validators c k n =
        .ok { c with bridge := { c.bridge with required_validators := n } }) := by
  constructor
  · intro hk
    refine ⟨?_, ?_, ?_⟩ <;> simp [pause_bridge, unpause_bridge, update_validators, hk]
  · intro hk
    refine ⟨?_, ?_, ?_⟩ <;> simp [pause_bridge, unpause_bridge, update_validators, hk]

/-- Witness for `admin_requires_authority`: caller 8 is not the authority of
`testChain` (which is 7) and all three admin operations reject it. -/
theorem admin_requires_authority_witness :
    pause_bridge testChain 8 = .error .unauthorized ∧
    unpause_bridge testChain 8 = .error .unauthorized ∧
    update_validators testChain 8 3 = .error .unauthorized :=
  (admin_requires_authority testChain 8 3).1 (by decide)

/-! ## Claim C8 — no amount check on mint -/

/-- C8 counterexample: `mint_wrapped` has no `amount > 0` guard — a mint with
`amount = 0` that passes the other gates succeeds, creating a
`ProcessedTransaction` entry with amount 0 and incrementing the nonce (only
`burn_wrapped` checks the amount). -/
theorem zero_amount_mint_succeeds :
    mint_wrapped testChain 0 hashB [sigA, sigB] 5 0 none = .ok chainAfterZeroMint ∧
    chainAfterZeroMint.processed.lookup hashB =
      some { is_processed := true, ethereum_tx_hash := hashB, amount := 0,
             recipient := 5, timestamp := 0 } ∧
    chainAfterZeroMint.bridge.nonce = testChain.bridge.nonce + 1 :=
  ⟨by decide, by decide, by decide⟩

/-- C8 (amended): the mint transition does not validate the amount — a
zero-amount mint satisfying the remaining gates succeeds, committing an entry
with amount 0, leaving `total_minted` unchanged and incrementing the nonce —
whereas the burn transition rejects `amount = 0` with `InvalidAmount`. -/
theorem mint_lacks_amount_check (c : Chain) (h : List Nat)
    (s : List (List Nat)) (r : Nat) (t : Int)
    (hl : c.processed.lookup h = none) (hp : c.bridge.paused = false)
    (hs : c.bridge.required_validators ≤ s.length)
    (hm : c.bridge.total_minted < U64_MOD) (hn : c.bridge.nonce + 1 < U64_MOD) :
    (∃ c2, mint_wrapped c 0 h s r t none = .ok c2 ∧
      c2.bridge.total_minted = c.bridge.total_minted ∧
      c2.bridge.nonce = c.bridge.nonce + 1 ∧
      c2.processed.lookup h =
        some { is_processed := true, ethereum_tx_hash := h, amount := 0,
               recipient := r, timestamp := t }) ∧
    (∀ rec u t2 le, c.burns.lookup (u, c.bridge.nonce) = none →
        burn_wrapped c 0 rec u t2 le = .error .invalidAmount) := by
  constructor
  · refine ⟨_, mint_wrapped_success 0 r t hl hp hs (by simpa using hm) hn, ?_, ?_, ?_⟩
    · simp
    · simp
    · exact List.lookup_cons_self
  · intro rec u t2 le hlb
    exact burn_wrapped_zero rec t2 le hlb hp

/-- Witness for `mint_lacks_amount_check` at concrete inputs. -/
theorem mint_lacks_amount_check_witness :
    (∃ c2, mint_wrapped testChain 0 hashB [sigA, sigB] 5 0 none = .ok c2 ∧
      c2.bridge.total_minted = testChain.bridge.total_minted ∧
      c2.bridge.nonce = testChain.bridge.nonce + 1 ∧
      c2.processed.lookup hashB =
        some { is_processed := true, ethereum_tx_hash := hashB, amount := 0,
               recipient := 5, timestamp := 0 }) ∧
    (∀ rec u t2 le, testChain.burns.lookup (u, testChain.bridge.nonce) = none →
        burn_wrapped testChain 0 rec u t2 le = .error .invalidAmount) :=
  mint_lacks_amount_check testChain hashB [sigA, sigB] 5 0
    (by decide) (by decide) (by decide) (by decide) (by decide)

/-! ## Claim C9 — signature bytes are never inspected -/

/-- C9: the outcome of a mint depends only on the number of signature records
supplied, never on their bytes — two mint calls agreeing on everything except
the contents of their (equally long) signature lists return identical
results, state included. -/
theorem mint_depends_only_on_signature_count (c : Chain) (a : Nat)
    (h : List Nat) (s1 s2 : List (List Nat)) (r : Nat) (t : Int)
    (le : Option Nat) (hlen : s1.length = s2.length) :
    mint_wrapped c a h s1 r t le = mint_wrapped c a h s2 r t le := by
  unfold mint_wrapped
  rw [hlen]

/-- Witness for `mint_depends_only_on_signature_count`: two completely
different signature lists of length two give the same result. -/
theorem mint_depends_only_on_signature_count_witness :
    mint_wrapped testChain 100 hashA [sigA, sigA] 5 0 none =
      mint_wrapped testChain 100 hashA [sigB, sigB] 5 0 none :=
  mint_depends_only_on_signature_count testChain 100 hashA
    [sigA, sigA] [sigB, sigB] 5 0 none (by decide)

/-! ## Claim C10 — `InvalidEthereumAddress` is unreachable -/

/-- C10: no operation ever returns `InvalidEthereumAddress`; every error any
operation returns is `BridgePaused`, `AlreadyProcessed`,
`InsufficientValidators`, `InvalidAmount`, or a framework/ledger failure; and
the burn transition accepts every 20-byte `ethereum_recipient` value without
validation whenever its other preconditions hold. -/
theorem invalid_ethereum_address_unreachable :
    (∀ c a h s r t le,
        mint_wrapped c a h s r t le ≠ .error .invalidEthereumAddress) ∧
    (∀ c a rec u t le,
        burn_wrapped c a rec u t le ≠ .error .invalidEthereumAddress) ∧
    (∀ b eb rv au,
        initialize_bridge b eb rv au ≠ .error .invalidEthereumAddress) ∧
    (∀ c k, pause_bridge c k ≠ .error .invalidEthereumAddress) ∧
    (∀ c k, unpause_bridge c k ≠ .error .invalidEthereumAddress) ∧
    (∀ c k n, update_validators c k n ≠ .error .invalidEthereumAddress) ∧
    (∀ c a h s r t le e, mint_wrapped c a h s r t le = .error e →
        e = .bridgePaused ∨ e = .alreadyProcessed ∨
        e = .insufficientValidators ∨ e = .invalidAmount ∨
        isFrameworkOrLedgerErr e) ∧
    (∀ c a rec u t le e, burn_wrapped c a rec u t le = .error e →
        e = .bridgePaused ∨ e = .alreadyProcessed ∨
        e = .insufficientValidators ∨ e = .invalidAmount ∨
        isFrameworkOrLedgerErr e) ∧
    (∀ c k e, pause_bridge c k = .error e → isFrameworkOrLedgerErr e) ∧
    (∀ c k e, unpause_bridge c k = .error e → isFrameworkOrLedgerErr e) ∧
    (∀ c k n e, update_validators c k n = .error e → isFrameworkOrLedgerErr e) ∧
    (∀ c (rec : List Nat) a u t,
        c.burns.lookup (u, c.bridge.nonce) = none → c.bridge.paused = false →
        0 < a → c.bridge.total_burned + a < U64_MOD →
        c.bridge.nonce + 1 < U64_MOD →
        ∃ c2, burn_wrapped c a rec u t none = .ok c2 ∧
          c2.burns.lookup (u, c.bridge.nonce) =
            some { user := u, amount := a, ethereum_recipient := rec,
                   timestamp := t, nonce := c.bridge.nonce,
                   processed_on_ethereum := false }) := by
  refine ⟨?_, ?_, ?_, ?_, ?_, ?_, ?_, ?_, ?_, ?_, ?_, ?_⟩
  · intro c a h s r t le hm
    rcases mint_wrapped_error_cases hm with h2|h2|h2|h2|⟨code,h2⟩|h2 <;>
      exact BridgeErr.noConfusion h2
  · intro c a rec u t le hb
    rcases burn_wrapped_error_cases hb with h2|h2|h2|⟨code,h2⟩|h2 <;>
      exact BridgeErr.noConfusion h2
  · intro b eb rv au hi
    exact BridgeErr.noConfusion (initialize_bridge_error_cases hi)
  · intro c k hp
    exact BridgeErr.noConfusion (pause_bridge_error_cases hp)
  · intro c k hp
    exact BridgeErr.noConfusion (unpause_bridge_error_cases hp)
  · intro c k n hp
    exact BridgeErr.noConfusion (update_validators_error_cases hp)
  · intro c a h s r t le e hm
    rcases mint_wrapped_error_cases hm with h2|h2|h2|h2|⟨code,h2⟩|h2 <;>
      subst h2 <;> simp [isFrameworkOrLedgerErr]
  · intro c a rec u t le e hb
    rcases burn_wrapped_error_cases hb with h2|h2|h2|⟨code,h2⟩|h2 <;>
      subst h2 <;> simp [isFrameworkOrLedgerErr]
  · intro c k e hp
    have h2 := pause_bridge_error_cases hp
    subst h2
    simp [isFrameworkOrLedgerErr]
  · intro c k e hp
    have h2 := unpause_bridge_error_cases hp
    subst h2
    simp [isFrameworkOrLedgerErr]
  · intro c k n e hp
    have h2 := update_validators_error_cases hp
    subst h2
    simp [isFrameworkOrLedgerErr]
  · intro c rec a u t hl hp ha hb hn
    refine ⟨_, burn_wrapped_success rec t hl hp ha hb hn, ?_⟩
    exact List.lookup_cons_self

/-- Witness for `invalid_ethereum_address_unreachable`: the burn-acceptance
conjunct at the all-zero 20-byte recipient. -/
theorem invalid_ethereum_address_unreachable_witness :
    ∃ c2, burn_wrapped chainAfterMintA 40 zeroAddr 6 0 none = .ok c2 ∧
      c2.burns.lookup (6, chainAfterMintA.bridge.nonce) =
        some { user := 6, amount := 40, ethereum_recipient := zeroAddr,
               timestamp := 0, nonce := chainAfterMintA.bridge.nonce,
               processed_on_ethereum := false } :=
  invalid_ethereum_address_unreachable.2.2.2.2.2.2.2.2.2.2.2
    chainAfterMintA zeroAddr 40 6 0
    (by decide) (by decide) (by decide) (by decide) (by decide)

end OmkBridge
